import Mathlib

/-!
Verification development for the process-orchestration and event-normalization
core of an editor plugin driving external AI CLI backends.

The definitions below are a shallow embedding of the TypeScript sources:
- `src/core/backends/opencode-backend.ts` (class `OpenCodeBackend`)
- `src/core/backends/claude-backend.ts` (class `ClaudeBackend`)
- `src/core/backends/types.ts` (raw and normalized event shapes)
- `src/managers/note-context-manager.ts` (class `NoteContextManager`)
- the `SessionManager` conversation-history persistence
- the `ProcessSpawner` shell-environment reconstruction and spawning
- the view handler `handleRunClaudeCode` (run-request guard)

TypeScript optional fields become `Option`; JavaScript truthiness on strings
(`""` is falsy) and on numbers (`0` is falsy) is modelled explicitly by the
`jsOr*` helpers; mutable adapter state becomes explicit state passing.
-/

/-- JavaScript `a || b` for an optional string `a`: the empty string is falsy. -/
def jsOrStr (x : Option String) (d : String) : String :=
  match x with
  | some s => if s = "" then d else s
  | none => d

/-- JavaScript `a || b` for an optional number `a`: `0` is falsy. -/
def jsOrNat (x : Option Nat) (d : Nat) : Nat :=
  match x with
  | some n => if n = 0 then d else n
  | none => d

/-- JavaScript `a || b` for an optional rational number `a`: `0` is falsy. -/
def jsOrRat (x : Option Rat) (d : Rat) : Rat :=
  match x with
  | some c => if c = 0 then d else c
  | none => d

/-- JavaScript truthiness of an optional string (`undefined` and `""` are falsy). -/
def strTruthy : Option String → Bool
  | some s => s ≠ ""
  | none => false

mutual

/-- Arbitrary decoded JSON values, as they appear in opaque tool-input and
tool-result payloads (`unknown` / `Record<string, unknown>` in the source).
Numbers are modelled as rationals. -/
inductive JsonVal where
  | str (s : String)
  | num (n : Rat)
  | bool (b : Bool)
  | null
  | arr (elems : JsonElems)
  | obj (fields : JsonObj)
deriving DecidableEq, Repr

/-- A list of decoded JSON values (elements of a JSON array). -/
inductive JsonElems where
  | nil
  | cons (v : JsonVal) (rest : JsonElems)
deriving DecidableEq, Repr

/-- A decoded JSON object (`Record<string, unknown>` in the source): a list of
key/value fields. -/
inductive JsonObj where
  | nil
  | cons (key : String) (v : JsonVal) (rest : JsonObj)
deriving DecidableEq, Repr

end

mutual

/-- `JSON.stringify` on a decoded JSON value (escaping is not modelled; the
adapters treat the produced string as an opaque blob). -/
def JsonVal.stringify : JsonVal → String
  | .str s => "\"" ++ s ++ "\""
  | .num n => toString n
  | .bool b => Bool.rec "false" "true" b
  | .null => "null"
  | .arr elems => "[" ++ JsonVal.stringifyElems elems ++ "]"
  | .obj fields => "\x7b" ++ JsonVal.stringifyFields fields ++ "\x7d"

/-- Comma-separated serialization of JSON array elements. -/
def JsonVal.stringifyElems : JsonElems → String
  | .nil => ""
  | .cons v .nil => v.stringify
  | .cons v rest => v.stringify ++ "," ++ JsonVal.stringifyElems rest

/-- Comma-separated serialization of JSON object fields. -/
def JsonVal.stringifyFields : JsonObj → String
  | .nil => ""
  | .cons k v .nil => "\"" ++ k ++ "\":" ++ v.stringify
  | .cons k v rest => "\"" ++ k ++ "\":" ++ v.stringify ++ "," ++ JsonVal.stringifyFields rest

end

/-- Token usage statistics carried by a normalized `step_complete` event
(interface `StandardEvent.tokens` in `backends/types.ts`). -/
structure EventTokens where
  input : Nat
  output : Nat
  cached : Option Nat := none
deriving DecidableEq, Repr

/-- Normalized event format used internally (interface `StandardEvent` in
`backends/types.ts`): a tag string plus tag-dependent optional payload
fields, exactly as in the source interface. -/
structure StandardEvent where
  type : String
  blockType : Option String := none
  sessionId : Option String := none
  text : Option String := none
  toolName : Option String := none
  toolInput : Option JsonObj := none
  toolOutput : Option String := none
  tokens : Option EventTokens := none
  cost : Option Rat := none
  durationMs : Option Nat := none
  isStreaming : Option Bool := none
  model : Option String := none
  tools : Option (List String) := none
  errorMessage : Option String := none
deriving DecidableEq, Repr

/-- `cache` sub-object of OpenCode token statistics. -/
structure OpenCodeTokenCache where
  read : Option Nat := none
  write : Option Nat := none
deriving DecidableEq, Repr

/-- Token statistics of an OpenCode `step_finish` part. -/
structure OpenCodeTokens where
  input : Option Nat := none
  output : Option Nat := none
  reasoning : Option Nat := none
  cache : Option OpenCodeTokenCache := none
deriving DecidableEq, Repr

/-- Tool state of an OpenCode `tool_use` part. The unused `time` sub-object of
the source interface is omitted (never read by the adapter). -/
structure OpenCodeToolState where
  status : Option String := none
  input : Option JsonObj := none
  output : Option String := none
  title : Option String := none
  metadata : Option JsonObj := none
deriving DecidableEq, Repr

/-- The `part` payload of a raw OpenCode event (interface `OpenCodeRawEvent.part`). -/
structure OpenCodePart where
  id : Option String := none
  sessionID : Option String := none
  messageID : Option String := none
  type : Option String := none
  text : Option String := none
  tool : Option String := none
  callID : Option String := none
  state : Option OpenCodeToolState := none
  reason : Option String := none
  snapshot : Option String := none
  cost : Option Rat := none
  tokens : Option OpenCodeTokens := none
deriving DecidableEq, Repr

/-- Raw event emitted by the OpenCode CLI (interface `OpenCodeRawEvent`). -/
structure OpenCodeRawEvent where
  type : String
  timestamp : Option Nat := none
  sessionID : Option String := none
  part : Option OpenCodePart := none
deriving DecidableEq, Repr

/-- Backend adapter for the OpenCode CLI (class `OpenCodeBackend`).
Its only mutable state is the `hasSeenInit` flag; methods that mutate it are
modelled as state-passing functions. -/
structure OpenCodeBackend where
  hasSeenInit : Bool
deriving DecidableEq, Repr

namespace OpenCodeBackend

/-- `OpenCodeBackend.reset`: reset state for a new session. -/
def reset (_ : OpenCodeBackend) : OpenCodeBackend :=
  { hasSeenInit := false }

/-- `OpenCodeBackend.parseStepStartEvent`: the first `step_start` is treated as
init (setting `hasSeenInit`), subsequent `step_start`s are ignored. -/
def parseStepStartEvent (b : OpenCodeBackend) (event : OpenCodeRawEvent) :
    OpenCodeBackend × Option StandardEvent :=
  if !b.hasSeenInit then
    ({ hasSeenInit := true }, some { type := "init", sessionId := event.sessionID })
  else
    (b, none)

/-- `OpenCodeBackend.parseTextEvent`: a `text` part with truthy text becomes a
streaming text event; falsy text (`undefined` or `""`) yields null. -/
def parseTextEvent (event : OpenCodeRawEvent) : Option StandardEvent :=
  match event.part.bind (fun p => p.text) with
  | none => none
  | some t =>
    if t = "" then none
    else some { type := "text", text := some t, sessionId := event.sessionID,
                isStreaming := some true }

/-- `OpenCodeBackend.parseToolUseEvent`: branches on `state.status` to emit
either `tool_start` or `tool_result` for a single incoming line. -/
def parseToolUseEvent (event : OpenCodeRawEvent) : Option StandardEvent :=
  match event.part with
  | none => none
  | some part =>
    let toolName := jsOrStr part.tool "unknown"
    match part.state with
    | none =>
      some { type := "tool_start", toolName := some toolName, sessionId := event.sessionID }
    | some state =>
      if state.status = some "completed" then
        some { type := "tool_result", toolName := some toolName,
               toolInput := state.input, toolOutput := state.output,
               sessionId := event.sessionID }
      else
        some { type := "tool_start", toolName := some toolName,
               toolInput := state.input, sessionId := event.sessionID }

/-- `OpenCodeBackend.parseStepFinishEvent`: always yields `step_complete` with
cost defaulted to `0` and token counts defaulted to `0`. -/
def parseStepFinishEvent (event : OpenCodeRawEvent) : StandardEvent :=
  let part := event.part
  let tokens := part.bind (fun p => p.tokens)
  { type := "step_complete",
    cost := some (jsOrRat (part.bind (fun p => p.cost)) 0),
    tokens := tokens.map (fun t =>
      { input := jsOrNat t.input 0,
        output := jsOrNat t.output 0,
        cached := some (jsOrNat (t.cache.bind (fun c => c.read)) 0) }),
    sessionId := event.sessionID }

/-- `OpenCodeBackend.parseEvent`: dispatch on the raw event type; unrecognized
types fall through to null with the adapter state unchanged. -/
def parseEvent (b : OpenCodeBackend) (event : OpenCodeRawEvent) :
    OpenCodeBackend × Option StandardEvent :=
  if event.type = "step_start" then b.parseStepStartEvent event
  else if event.type = "text" then (b, parseTextEvent event)
  else if event.type = "tool_use" then (b, parseToolUseEvent event)
  else if event.type = "step_finish" then (b, some (parseStepFinishEvent event))
  else (b, none)

/-- Feeding a list of decoded raw events to `parseEvent` in order, threading the
adapter state, and collecting the per-event results. -/
def runEvents : OpenCodeBackend → List OpenCodeRawEvent → OpenCodeBackend × List (Option StandardEvent)
  | b, [] => (b, [])
  | b, e :: es =>
    let r := b.parseEvent e
    let rest := runEvents r.1 es
    (rest.1, r.2 :: rest.2)

end OpenCodeBackend

/-- A typed content block of a Claude assistant message
(`ClaudeRawEvent.message.content` entries in `backends/types.ts`). -/
structure ClaudeContentBlock where
  type : String
  text : Option String := none
  name : Option String := none
  input : Option JsonObj := none
  tool_use_id : Option String := none
  content : Option JsonVal := none
deriving DecidableEq, Repr

/-- The `message` payload of a raw Claude `assistant` event. -/
structure ClaudeMessage where
  content : Option (List ClaudeContentBlock) := none
deriving DecidableEq, Repr

/-- Token usage of a raw Claude `result` event (fields are required in the
source interface). -/
structure ClaudeUsage where
  input_tokens : Nat
  output_tokens : Nat
deriving DecidableEq, Repr

/-- The `delta` payload of a Claude `stream_event` sub-event. -/
structure ClaudeDelta where
  type : String
  text : Option String := none
deriving DecidableEq, Repr

/-- The `content_block` payload of a Claude `stream_event` sub-event. -/
structure ClaudeContentBlockInfo where
  type : String
deriving DecidableEq, Repr

/-- The nested `event` payload of a raw Claude `stream_event`. -/
structure ClaudeStreamSubEvent where
  type : String
  delta : Option ClaudeDelta := none
  content_block : Option ClaudeContentBlockInfo := none
deriving DecidableEq, Repr

/-- Raw event emitted by the Claude Code CLI (interface `ClaudeRawEvent`).
The `result` field is `string | Record<string, unknown>` in the source and is
modelled as an arbitrary JSON value. -/
structure ClaudeRawEvent where
  type : String
  subtype : Option String := none
  model : Option String := none
  tools : Option (List String) := none
  session_id : Option String := none
  message : Option ClaudeMessage := none
  tool_name : Option String := none
  input : Option JsonObj := none
  result : Option JsonVal := none
  duration_ms : Option Nat := none
  total_cost_usd : Option Rat := none
  usage : Option ClaudeUsage := none
  event : Option ClaudeStreamSubEvent := none
deriving DecidableEq, Repr

namespace ClaudeBackend

/-- `ClaudeBackend.parseSystemEvent`: a `system` event with subtype `init`
becomes the normalized init event. -/
def parseSystemEvent (event : ClaudeRawEvent) : Option StandardEvent :=
  if event.subtype = some "init" then
    some { type := "init", sessionId := event.session_id, model := event.model,
           tools := event.tools }
  else
    none

/-- The body of the content-block loop in `ClaudeBackend.parseAssistantEvent`:
the normalized event a single content block would produce, if any. This is the
per-block mapping the specification describes for assistant turns. -/
def blockEvent (block : ClaudeContentBlock) : Option StandardEvent :=
  if block.type = "thinking" ∧ strTruthy block.text then
    some { type := "thinking", text := block.text }
  else if block.type = "text" ∧ strTruthy block.text then
    some { type := "text", text := block.text }
  else if block.type = "tool_use" ∧ strTruthy block.name then
    some { type := "tool_start", toolName := block.name, toolInput := block.input }
  else
    none

/-- The content-block loop of `ClaudeBackend.parseAssistantEvent`: walks the
blocks in order, the loop body being `blockEvent`, and returns as soon as one
of the three block shapes matches (the `return` inside the `for` loop of the
source); otherwise it continues with the remaining blocks. -/
def parseBlocks : List ClaudeContentBlock → Option StandardEvent
  | [] => none
  | block :: rest =>
    match blockEvent block with
    | some ev => some ev
    | none => parseBlocks rest

/-- `ClaudeBackend.parseAssistantEvent`: processes the content blocks of an
assistant message (note that the loop returns at the first matching block). In
JavaScript an empty content array is truthy, so `message.content = []` passes
the guard and falls through to null. -/
def parseAssistantEvent (event : ClaudeRawEvent) : Option StandardEvent :=
  match event.message.bind (fun m => m.content) with
  | none => none
  | some blocks => parseBlocks blocks

/-- The result-serialization step of `ClaudeBackend.parseToolUseEvent` (typeof check, then `JSON.stringify`):
a string result passes through, any other defined value is serialized, and an
absent result stays absent. -/
def resultToOutput : Option JsonVal → Option String
  | some (.str s) => some s
  | some v => some v.stringify
  | none => none

/-- `ClaudeBackend.parseToolUseEvent`: branches on the subtype to emit
`tool_start` (when a truthy input object is present) or `tool_result`. -/
def parseToolUseEvent (event : ClaudeRawEvent) : Option StandardEvent :=
  let toolName := jsOrStr event.tool_name "unknown"
  if event.subtype = some "input" ∧ event.input.isSome then
    some { type := "tool_start", toolName := some toolName, toolInput := event.input }
  else if event.subtype = some "result" then
    some { type := "tool_result", toolName := some toolName,
           toolOutput := resultToOutput event.result }
  else
    none

/-- `ClaudeBackend.parseResultEvent`: always yields `step_complete` carrying
duration, cost and (when usage is present) token counts. -/
def parseResultEvent (event : ClaudeRawEvent) : StandardEvent :=
  { type := "step_complete",
    durationMs := event.duration_ms,
    cost := event.total_cost_usd,
    tokens := event.usage.map (fun u =>
      { input := u.input_tokens, output := u.output_tokens }) }

/-- `ClaudeBackend.parseStreamEvent`: fine-grained streaming sub-events
(content-block start/delta/stop). -/
def parseStreamEvent (event : ClaudeRawEvent) : Option StandardEvent :=
  match event.event with
  | none => none
  | some streamEvent =>
    if streamEvent.type = "content_block_delta" then
      if (streamEvent.delta.map (fun d => d.type)) = some "text_delta" ∧
          strTruthy (streamEvent.delta.bind (fun d => d.text)) then
        some { type := "text", text := streamEvent.delta.bind (fun d => d.text),
               isStreaming := some true }
      else if (streamEvent.delta.map (fun d => d.type)) = some "thinking_delta" ∧
          strTruthy (streamEvent.delta.bind (fun d => d.text)) then
        some { type := "thinking", text := streamEvent.delta.bind (fun d => d.text),
               isStreaming := some true }
      else
        none
    else if streamEvent.type = "content_block_start" then
      let blockType := streamEvent.content_block.map (fun cb => cb.type)
      if blockType = some "text" ∨ blockType = some "thinking" then
        some { type := "block_start", blockType := blockType }
      else
        none
    else if streamEvent.type = "content_block_stop" then
      some { type := "block_end" }
    else
      none

/-- `ClaudeBackend.parseEvent`: dispatch on the raw event type; unrecognized
types fall through to null. The Claude adapter is stateless. -/
def parseEvent (event : ClaudeRawEvent) : Option StandardEvent :=
  if event.type = "system" then parseSystemEvent event
  else if event.type = "assistant" then parseAssistantEvent event
  else if event.type = "tool_use" then parseToolUseEvent event
  else if event.type = "result" then some (parseResultEvent event)
  else if event.type = "stream_event" then parseStreamEvent event
  else none

/-- Specification-side definition (for refinement comparison), following the
specification words: assistant turns "carry typed content blocks
(thinking/text/tool_use) that must be demultiplexed one block at a time", i.e.
each matching content block gives rise to its own normalized event. -/
def specDemuxEvents (blocks : List ClaudeContentBlock) : List StandardEvent :=
  blocks.filterMap blockEvent

end ClaudeBackend

/-- Plugin settings record. Its many configuration fields are irrelevant to the
claims (the embedded operations only pass it around), so it is modelled as an
opaque record identified by a tag. -/
structure ClaudeCodeSettings where
  tag : Nat
deriving DecidableEq, Repr

/-- Modelled from the spec: the runner (conversation executor) lives in
`claude-code-runner.ts`, which is not among the provided sources; the context
manager only constructs it from the current settings (`new
ClaudeCodeRunner(this.settings)`) and stores it, so it is modelled by its
constructor argument. -/
structure ClaudeCodeRunner where
  settings : ClaudeCodeSettings
deriving DecidableEq, Repr

/-- Token usage type (interface `TokenUsage` in `core/types.ts`). -/
structure TokenUsage where
  inputTokens : Option Nat := none
  outputTokens : Option Nat := none
  totalTokens : Option Nat := none
deriving DecidableEq, Repr

/-- Modelled from the spec: the request value of `claude-code-runner.ts` (not
among the provided sources) — "immutable value describing one invocation:
optional note content, optional selected-text-only slice, user prompt, vault
root path, plugin config directory name, optional runtime model override,
conversational-mode flag, optional session directory override, optional
bypass-permissions flag", plus the note path the view passes along. -/
structure ClaudeCodeRequest where
  noteContent : Option String := none
  userPrompt : String
  notePath : Option String := none
  selectedText : Option String := none
  vaultPath : String
  configDir : String
  runtimeModelOverride : Option String := none
  conversationalMode : Bool := false
  sessionDir : Option String := none
  bypassPermissions : Option Bool := none
deriving DecidableEq, Repr

/-- Modelled from the spec: the response value of `claude-code-runner.ts` (not
among the provided sources) — "immutable result of a run: success flag,
optional modified file content, optional assistant message text, optional
error string, optional permission-request flag, raw output line list, optional
token-usage counts". -/
structure ClaudeCodeResponse where
  success : Bool
  modifiedContent : Option String := none
  assistantMessage : Option String := none
  error : Option String := none
  isPermissionRequest : Option Bool := none
  outputLines : List String := []
  tokenUsage : Option TokenUsage := none
deriving DecidableEq, Repr

/-- One history entry of a note context (interface `SessionHistoryItem` in
`core/types.ts`); `Date` timestamps are modelled as numbers. -/
structure SessionHistoryItem where
  prompt : String
  timestamp : Nat
  success : Bool
  notePath : String
  response : Option ClaudeCodeResponse := none
  request : Option ClaudeCodeRequest := none
  outputLines : Option (List String) := none
deriving DecidableEq, Repr

/-- One tracked agent/tool step (interface `AgentStep` in `core/types.ts`). -/
structure AgentStep where
  icon : String
  action : String
  target : String
  key : String
  startTime : Option Nat := none
  duration : Option Nat := none
deriving DecidableEq, Repr

/-- Per-note conversation context (interface `NoteContext` in
`core/types.ts`). The two `HTMLButtonElement` UI handles of the source are not
data and are not modelled; every other field is. -/
structure NoteContext where
  history : List SessionHistoryItem
  sessionId : Option String
  currentResponse : Option ClaudeCodeResponse
  currentRequest : Option ClaudeCodeRequest
  outputLines : List String
  agentSteps : List AgentStep
  runner : ClaudeCodeRunner
  isRunning : Bool
  waitingForResponse : Option Bool := none
  selectedModel : Option String := none
  lastPrompt : Option String := none
  pendingPreviewContent : Option String := none
  originalPreviewContent : Option String := none
  currentResultText : Option String := none
  executionStartTime : Option Nat := none
  baseStatusMessage : Option String := none
deriving DecidableEq, Repr

/-- The conversation-key to context map owned by the `NoteContextManager`
(`private contexts: Map<string, NoteContext>`). -/
abbrev CtxMap := String → Option NoteContext

/-- The empty context map (a freshly constructed manager). -/
def emptyCtxMap : CtxMap := fun _ => none

/-- The on-disk record of one persisted context
(interface `SessionData` in `note-context-manager.ts`; `savedAt` added by
`saveContext`). All fields are optional in the source. -/
structure SessionData where
  history : Option (List SessionHistoryItem) := none
  sessionId : Option String := none
  outputLines : Option (List String) := none
  agentSteps : Option (List AgentStep) := none
  notePath : Option String := none
  pendingPreviewContent : Option String := none
  originalPreviewContent : Option String := none
  savedAt : Option String := none
deriving DecidableEq, Repr

/-- The persisted contexts directory for one root: a directory listing mapping
each note-hash directory name to its parsed `context.json` record. Directory
names are unique in a file system; entries whose file is missing or fails to
parse are simply absent (the loader skips them). -/
abbrev ContextStore := List (String × SessionData)

/-- Write a record under a directory name: replaces the existing entry with
that name, or appends a new one. -/
def storePut : ContextStore → String → SessionData → ContextStore
  | [], h, d => [(h, d)]
  | (h₁, d₁) :: rest, h, d =>
    if h₁ = h then (h, d) :: rest else (h₁, d₁) :: storePut rest h d

namespace NoteContextManager

/-- `NoteContextManager.createNewContext`: a new empty context with a fresh
runner built from the current settings. -/
def createNewContext (settings : ClaudeCodeSettings) : NoteContext :=
  { history := [], sessionId := none, currentResponse := none,
    currentRequest := none, outputLines := [], agentSteps := [],
    runner := { settings := settings }, isRunning := false }

/-- `NoteContextManager.getContext`: get or create the context for a note,
returning the (possibly extended) map together with the context. -/
def getContext (settings : ClaudeCodeSettings) (contexts : CtxMap)
    (notePath : String) : CtxMap × NoteContext :=
  match contexts notePath with
  | some context => (contexts, context)
  | none =>
    let context := createNewContext settings
    (fun k => if k = notePath then some context else contexts k, context)

/-- `NoteContextManager.clearHistory`: clear history, output lines and agent
steps of the addressed context; a missing context is left alone. -/
def clearHistory (contexts : CtxMap) (notePath : String) : CtxMap :=
  match contexts notePath with
  | some context =>
    fun k => if k = notePath then
        some { context with history := [], outputLines := [], agentSteps := [] }
      else contexts k
  | none => contexts

/-- `NoteContextManager.saveContext`: persist one context under the hash of its
note path (the `md5` hash function and the `savedAt` clock reading are inputs
of the model). A note path without a context is a no-op. -/
def saveContext (md5 : String → String) (contexts : CtxMap) (notePath : String)
    (savedAt : String) (store : ContextStore) : ContextStore :=
  match contexts notePath with
  | none => store
  | some context =>
    storePut store (md5 notePath)
      { notePath := some notePath,
        sessionId := context.sessionId,
        history := some context.history,
        outputLines := some context.outputLines,
        agentSteps := some context.agentSteps,
        pendingPreviewContent := context.pendingPreviewContent,
        originalPreviewContent := context.originalPreviewContent,
        savedAt := some savedAt }

/-- The context reconstructed from one persisted record in
`NoteContextManager.loadContexts`. -/
def reconstructContext (settings : ClaudeCodeSettings) (data : SessionData) :
    NoteContext :=
  { history := data.history.getD [],
    sessionId := data.sessionId,
    currentResponse := none,
    currentRequest := none,
    outputLines := data.outputLines.getD [],
    agentSteps := data.agentSteps.getD [],
    runner := { settings := settings },
    isRunning := false,
    pendingPreviewContent := data.pendingPreviewContent,
    originalPreviewContent := data.originalPreviewContent }

/-- One iteration of the directory loop in `NoteContextManager.loadContexts`:
the reconstructed context is stored only when `data.notePath` is truthy
(in JavaScript the empty string is falsy). -/
def loadStep (settings : ClaudeCodeSettings) (contexts : CtxMap)
    (entry : String × SessionData) : CtxMap :=
  match entry.2.notePath with
  | some p =>
    if p = "" then contexts
    else fun k => if k = p then some (reconstructContext settings entry.2) else contexts k
  | none => contexts

/-- `NoteContextManager.loadContexts`: walk every note-hash directory of the
store in listing order and register each successfully parsed context under the
note path recorded in its data. -/
def loadContexts (settings : ClaudeCodeSettings) (contexts : CtxMap)
    (store : ContextStore) : CtxMap :=
  store.foldl (loadStep settings) contexts

end NoteContextManager

/-- One persisted conversation-history message (role/content/timestamp). -/
structure ConversationMessage where
  role : String
  content : String
  timestamp : String
deriving DecidableEq, Repr

namespace SessionManager

/-- `SessionManager.saveConversationHistory`: load the existing history file
(`none` models a missing file), append the user/assistant exchange, keep only
the last 20 messages (10 exchanges), and return what is written back. The
clock reading for the timestamps is an input of the model. -/
def saveConversationHistory (stored : Option (List ConversationMessage))
    (userPrompt assistantResponse : String) (now : String) :
    List ConversationMessage :=
  let history := stored.getD []
  let history := history ++
    [{ role := "user", content := userPrompt, timestamp := now },
     { role := "assistant", content := assistantResponse, timestamp := now }]
  if history.length > 20 then
    history.drop (history.length - 20)
  else
    history

end SessionManager

/-- The last `n` elements of a list (JavaScript `slice(-n)` for `n > 0`). -/
def List.takeRight (l : List α) (n : Nat) : List α :=
  l.drop (l.length - n)

/-- Outcome of one invocation of the view handler `handleRunClaudeCode`
(which early return, if any, was taken). -/
inductive RunOutcome where
  | alreadyProcessing
  | emptyPrompt
  | noVaultPath
  | noEditor
  | started
deriving DecidableEq, Repr

/-- The synchronous prefix of `ClaudeCodeView.handleRunClaudeCode` in
`ui/view.ts`, up to (and including) the invocation of `context.runner.run`:
get-or-create the context for the current note, reject when it is already
running (the "already processing" notice), reject a blank prompt, reject a
missing vault path, and otherwise record the request on the context, clear its
output lines and streaming result text, mark it running, and invoke the runner
exactly once. The request value (assembled from editor state) is an input of
the model; `none` models the no-editor early return. UI-only effects are not
modelled. The returned number counts `runner.run` invocations, i.e. spawned
processes. -/
def handleRunClaudeCode (settings : ClaudeCodeSettings) (contexts : CtxMap)
    (currentNotePath promptRaw vaultPath : String)
    (request : Option ClaudeCodeRequest) : CtxMap × RunOutcome × Nat :=
  let r := NoteContextManager.getContext settings contexts currentNotePath
  let contexts₁ := r.1
  let context := r.2
  if context.isRunning then
    (contexts₁, RunOutcome.alreadyProcessing, 0)
  else if promptRaw.trim = "" then
    (contexts₁, RunOutcome.emptyPrompt, 0)
  else if vaultPath = "" then
    (contexts₁, RunOutcome.noVaultPath, 0)
  else
    match request with
    | none => (contexts₁, RunOutcome.noEditor, 0)
    | some req =>
      let context₁ := { context with
        currentRequest := some req,
        outputLines := [],
        currentResultText := none,
        isRunning := true }
      (fun k => if k = currentNotePath then some context₁ else contexts₁ k,
       RunOutcome.started, 1)

/-- An environment-variable map (`Record<string, string>` in the source,
NodeJS `process.env`). -/
abbrev EnvMap := String → Option String

/-- Configuration for spawning the CLI process (interface `SpawnConfig`).
Custom environment variables are an ordered list of key/value entries (the
iteration order of `Object.entries`). The debug-output callback is not data
and is not modelled. -/
structure SpawnConfig where
  claudePath : String
  args : List String
  workingDir : Option String := none
  customEnvVars : Option (List (String × String)) := none
deriving Repr

/-- The spawned child process as configured by `ProcessSpawner.spawn`: the
command, its argument vector, and the options object passed to NodeJS
`spawn` (working directory, environment, command interpreter). -/
structure SpawnedProcess where
  command : String
  args : List String
  cwd : Option String
  env : EnvMap
  shell : String

namespace ProcessSpawner

/-- Split one line of `env` output at its first `=` (only when the key part is
nonempty, `idx > 0` in the source). -/
def splitEnvLine (line : String) : Option (String × String) :=
  match line.toList.findIdx? (fun c => c = '=') with
  | some idx =>
    if idx > 0 then
      some (String.mk (line.toList.take idx), String.mk (line.toList.drop (idx + 1)))
    else
      none
  | none => none

/-- Parse the `env` dump of the sourced shell into a key/value map (later
lines override earlier ones, as in the source loop). -/
def parseEnvOutput (envOutput : String) : EnvMap :=
  (envOutput.splitOn "\n").foldl
    (fun env line =>
      match splitEnvLine line with
      | some (k, v) => fun q => if q = k then some v else env q
      | none => env)
    (fun _ => none)

/-- `ProcessSpawner.getShellEnvironment`: on Windows the host environment is
used directly; otherwise the login-shell profile files are sourced and the
resulting `env` dump parsed. The outcome of that `execSync` call (its output,
or the thrown error on failure or timeout) is an input of the model; on error
the host environment is the fallback. -/
def getShellEnvironment (isWindows : Bool) (processEnv : EnvMap)
    (execResult : Except String String) : EnvMap :=
  if isWindows then
    processEnv
  else
    match execResult with
    | .ok envOutput => parseEnvOutput envOutput
    | .error _ => processEnv

/-- The custom-environment merge loop of `ProcessSpawner.spawn`: entries with a
truthy (nonempty) value override the shell environment. -/
def mergeCustomEnv (custom : List (String × String)) (env : EnvMap) : EnvMap :=
  custom.foldl
    (fun env kv =>
      if kv.2 ≠ "" then fun q => if q = kv.1 then some kv.2 else env q
      else env)
    env

/-- The UTF-8 locale forcing of `ProcessSpawner.spawn` (the `envWithUtf8`
spread: `LANG`/`LC_ALL`/`LC_CTYPE` defaulted, `PYTHONIOENCODING` set, and
`NODE_OPTIONS` rewritten). -/
def withUtf8 (env : EnvMap) : EnvMap :=
  fun k =>
    if k = "LANG" then some (jsOrStr (env "LANG") "en_US.UTF-8")
    else if k = "LC_ALL" then some (jsOrStr (env "LC_ALL") "en_US.UTF-8")
    else if k = "LC_CTYPE" then some (jsOrStr (env "LC_CTYPE") "en_US.UTF-8")
    else if k = "PYTHONIOENCODING" then some "utf-8"
    else if k = "NODE_OPTIONS" then
      some (match env "NODE_OPTIONS" with
            | some s => if s = "" then "" else s ++ " --input-type=module"
            | none => "")
    else env k

/-- `ProcessSpawner.getDefaultShell`: `COMSPEC` (or `cmd.exe`) on Windows, the
`SHELL` variable (or `/bin/sh`) elsewhere. -/
def getDefaultShell (isWindows : Bool) (processEnv : EnvMap) : String :=
  if isWindows then jsOrStr (processEnv "COMSPEC") "cmd.exe"
  else jsOrStr (processEnv "SHELL") "/bin/sh"

/-- POSIX-style absolute-path test (the Windows drive-letter form is not
modelled; no claim depends on it). -/
def isAbsolutePath (p : String) : Bool :=
  p.startsWith "/"

/-- Simple path join (`path.join`; normalization is not modelled). -/
def pathJoin (dir file : String) : String :=
  dir ++ "/" ++ file

/-- The inner extension loop of the PATH search in `ProcessSpawner.spawn`:
try each platform extension in the given directory and stop at the first
existing file, otherwise keep the unresolved name. -/
def searchExts (fsExists : String → Bool) (dir : String) (name : String) :
    List String → String
  | [] => name
  | ext :: rest =>
    let fullPath := pathJoin dir (name ++ ext)
    if fsExists fullPath then fullPath else searchExts fsExists dir name rest

/-- The outer directory loop of the PATH search in `ProcessSpawner.spawn`:
the loop breaks as soon as the (possibly updated) resolved path is absolute. -/
def searchDirs (fsExists : String → Bool) (exts : List String) (name : String) :
    List String → String
  | [] => name
  | dir :: rest =>
    let name₁ := searchExts fsExists dir name exts
    if isAbsolutePath name₁ then name₁ else searchDirs fsExists exts name₁ rest

/-- The executable-path resolution of `ProcessSpawner.spawn`: expand a leading
`~` using `HOME`/`USERPROFILE`/`os.homedir()`, then, when the path is still
not absolute, search the PATH directories of the shell environment with the
platform-appropriate executable extensions. -/
def resolveClaudePath (isWindows : Bool) (fsExists : String → Bool)
    (osHomedir : String) (shellEnv : EnvMap) (claudePath : String) : String :=
  let resolved :=
    if claudePath.startsWith "~" then
      let homeDir := jsOrStr (shellEnv "HOME") (jsOrStr (shellEnv "USERPROFILE") osHomedir)
      homeDir ++ claudePath.drop 1
    else claudePath
  if isAbsolutePath resolved then resolved
  else
    let pathSeparator := if isWindows then ";" else ":"
    let pathDirs := ((jsOrStr (shellEnv "PATH") "").splitOn pathSeparator).filter
      (fun dir => dir ≠ "")
    let extensions := if isWindows then ["", ".exe", ".cmd", ".bat"] else [""]
    searchDirs fsExists extensions resolved pathDirs

/-- `ProcessSpawner.spawn` (the enhanced variant): reconstruct the shell
environment, merge the custom overrides, resolve the executable path, force
UTF-8 locale variables, and spawn the child with the platform default shell as
command interpreter. The platform flag, host environment, shell-dump outcome,
file-existence oracle and home directory are inputs of the model. -/
def spawn (isWindows : Bool) (processEnv : EnvMap)
    (execResult : Except String String) (fsExists : String → Bool)
    (osHomedir : String) (config : SpawnConfig) : SpawnedProcess :=
  let shellEnv := getShellEnvironment isWindows processEnv execResult
  let shellEnv := mergeCustomEnv (config.customEnvVars.getD []) shellEnv
  let resolvedClaudePath :=
    resolveClaudePath isWindows fsExists osHomedir shellEnv config.claudePath
  let shell := getDefaultShell isWindows processEnv
  let envWithUtf8 := withUtf8 shellEnv
  { command := resolvedClaudePath,
    args := config.args,
    cwd := config.workingDir,
    env := envWithUtf8,
    shell := shell }

end ProcessSpawner

/-! ### Concrete sample values used by closed witness and counterexample statements -/

/-- A concrete settings record. -/
def sampleSettings : ClaudeCodeSettings := { tag := 0 }

/-- A concrete history entry. -/
def sampleHistoryItem : SessionHistoryItem :=
  { prompt := "p", timestamp := 1, success := true, notePath := "note.md" }

/-- A concrete idle context with nonempty history and output. -/
def sampleContext : NoteContext :=
  { history := [sampleHistoryItem], sessionId := some "s1",
    currentResponse := none, currentRequest := none,
    outputLines := ["line"], agentSteps := [],
    runner := { settings := sampleSettings }, isRunning := false }

/-- A concrete context whose running flag is set. -/
def runningContext : NoteContext := { sampleContext with isRunning := true }

/-- A concrete context map holding `sampleContext` under the key `note.md`. -/
def sampleCtxMap : CtxMap :=
  fun k => if k = "note.md" then some sampleContext else none

/-- A concrete context map holding `runningContext` under the key `note.md`. -/
def runningCtxMap : CtxMap :=
  fun k => if k = "note.md" then some runningContext else none

/-- A concrete context map holding `sampleContext` under the empty-string key. -/
def emptyKeyCtxMap : CtxMap :=
  fun k => if k = "" then some sampleContext else none

/-- A concrete injective stand-in for the hexadecimal md5 digest, used only to
instantiate closed statements (the real hash enters the model as a function
parameter). -/
def md5c : String → String := fun s => String.append "h" s

/-! ### Claim theorems -/

/-- C2: for a freshly reset OpenCode backend adapter, parsing the three decoded
objects `step_start(sessionID "abc")`, `text(part.text "hi")` and
`step_finish(tokens 5/2)` in order yields exactly: an init event with session
id "abc", a streaming text event with text "hi", and a step_complete event
with token counts input 5 and output 2 (cost and cached count defaulted to 0
by the adapter). -/
theorem opencode_scenario_normalized_sequence (b : OpenCodeBackend) :
    (b.reset.runEvents
      [{ type := "step_start", sessionID := some "abc" },
       { type := "text", part := some { text := some "hi", sessionID := some "abc" } },
       { type := "step_finish",
         part := some { tokens := some { input := some 5, output := some 2 } } }]).2
    = [some { type := "init", sessionId := some "abc" },
       some { type := "text", text := some "hi", isStreaming := some true },
       some { type := "step_complete", cost := some 0,
              tokens := some { input := 5, output := 2, cached := some 0 } }] := by
  have hreset : b.reset = { hasSeenInit := false } := rfl
  rw [hreset]
  decide

/-- C1: a run request against a context whose running flag is set is rejected
with the "already processing" signal, spawns no process, and leaves the whole
context map (hence the context itself and every other context) unchanged. -/
theorem second_run_request_rejected (settings : ClaudeCodeSettings)
    (contexts : CtxMap) (notePath promptRaw vaultPath : String)
    (request : Option ClaudeCodeRequest) (context : NoteContext)
    (hctx : contexts notePath = some context)
    (hrun : context.isRunning = true) :
    handleRunClaudeCode settings contexts notePath promptRaw vaultPath request
      = (contexts, RunOutcome.alreadyProcessing, 0) := by
  unfold handleRunClaudeCode NoteContextManager.getContext
  rw [hctx]
  simp [hrun]

/-- Closed witness for `second_run_request_rejected`. -/
theorem second_run_request_rejected_witness :
    runningCtxMap "note.md" = some runningContext ∧
    runningContext.isRunning = true ∧
    handleRunClaudeCode sampleSettings runningCtxMap "note.md" "do it" "/vault"
        (some { userPrompt := "do it", vaultPath := "/vault", configDir := ".obsidian" })
      = (runningCtxMap, RunOutcome.alreadyProcessing, 0) :=
  ⟨by decide, by decide,
   second_run_request_rejected sampleSettings runningCtxMap "note.md" "do it" "/vault"
     (some { userPrompt := "do it", vaultPath := "/vault", configDir := ".obsidian" })
     runningContext (by decide) (by decide)⟩

/-- C6: for both backend adapters, a decoded JSON object whose type is not one
of the recognized event types of that adapter yields null (and, the embedded parse
functions being total, never throws); for the OpenCode adapter the state is
also untouched. -/
theorem parseEvent_unrecognized_is_noop (b : OpenCodeBackend)
    (e₁ : OpenCodeRawEvent) (e₂ : ClaudeRawEvent)
    (h₁ : e₁.type ∉ ["step_start", "text", "tool_use", "step_finish"])
    (h₂ : e₂.type ∉ ["system", "assistant", "tool_use", "result", "stream_event"]) :
    b.parseEvent e₁ = (b, none) ∧ ClaudeBackend.parseEvent e₂ = none := by
  simp only [List.mem_cons, List.not_mem_nil, or_false, not_or] at h₁ h₂
  obtain ⟨h11, h12, h13, h14⟩ := h₁
  obtain ⟨h21, h22, h23, h24, h25⟩ := h₂
  constructor
  · simp [OpenCodeBackend.parseEvent, h11, h12, h13, h14]
  · simp [ClaudeBackend.parseEvent, h21, h22, h23, h24, h25]

/-- Closed witness for `parseEvent_unrecognized_is_noop`. -/
theorem parseEvent_unrecognized_is_noop_witness :
    ("session_created" ∉ (["step_start", "text", "tool_use", "step_finish"] : List String)) ∧
    ("user" ∉ (["system", "assistant", "tool_use", "result", "stream_event"] : List String)) ∧
    ((OpenCodeBackend.mk false).parseEvent { type := "session_created" }
        = (OpenCodeBackend.mk false, none) ∧
      ClaudeBackend.parseEvent { type := "user" } = none) :=
  ⟨by decide, by decide,
   parseEvent_unrecognized_is_noop (OpenCodeBackend.mk false)
     { type := "session_created" } { type := "user" } (by decide) (by decide)⟩

/-- C8: one call to `saveConversationHistory` writes back exactly the previous
history extended by one user message and one assistant message and truncated
to the most recent 20 messages; in particular the stored history never
exceeds 20 messages after any call, whatever was stored before. -/
theorem saveConversationHistory_rolling_cap
    (stored : Option (List ConversationMessage)) (u a now : String) :
    SessionManager.saveConversationHistory stored u a now
      = ((stored.getD []) ++
          [({ role := "user", content := u, timestamp := now } : ConversationMessage),
           ({ role := "assistant", content := a, timestamp := now } : ConversationMessage)]).takeRight
          20 ∧
    (SessionManager.saveConversationHistory stored u a now).length ≤ 20 := by
  have hlen2 : ((stored.getD []) ++
      [({ role := "user", content := u, timestamp := now } : ConversationMessage),
       ({ role := "assistant", content := a, timestamp := now } : ConversationMessage)]).length
        = (stored.getD []).length + 2 := by
    simp
  simp only [SessionManager.saveConversationHistory, List.takeRight]
  constructor
  · split
    · rfl
    · next hlen =>
      rw [hlen2] at hlen ⊢
      have h0 : (stored.getD []).length + 2 - 20 = 0 := by omega
      rw [h0, List.drop_zero]
  · split
    · next hlen => rw [List.length_drop, hlen2]; omega
    · next hlen => rw [hlen2] at hlen; rw [hlen2]; omega

/-- C9: for a key with an existing context, `clearHistory` leaves history,
output lines and agent steps empty; calling it twice in a row leaves them
empty after each call, the second call completes (it is a total function) and
changes nothing further. -/
theorem NoteContextManager.clearHistory_of_some (contexts : CtxMap)
    (notePath : String) (context : NoteContext)
    (hctx : contexts notePath = some context) :
    NoteContextManager.clearHistory contexts notePath
      = fun k => if k = notePath then
          some { context with history := [], outputLines := [], agentSteps := [] }
        else contexts k := by
  unfold NoteContextManager.clearHistory
  rw [hctx]

theorem clearHistory_idempotent (contexts : CtxMap) (notePath : String)
    (context : NoteContext) (hctx : contexts notePath = some context) :
    (∃ c₁, NoteContextManager.clearHistory contexts notePath notePath = some c₁ ∧
      c₁.history = [] ∧ c₁.outputLines = [] ∧ c₁.agentSteps = []) ∧
    (∃ c₂, NoteContextManager.clearHistory
        (NoteContextManager.clearHistory contexts notePath) notePath notePath = some c₂ ∧
      c₂.history = [] ∧ c₂.outputLines = [] ∧ c₂.agentSteps = []) ∧
    NoteContextManager.clearHistory
        (NoteContextManager.clearHistory contexts notePath) notePath
      = NoteContextManager.clearHistory contexts notePath := by
  have h₁ := NoteContextManager.clearHistory_of_some contexts notePath context hctx
  have h₂ : NoteContextManager.clearHistory contexts notePath notePath
      = some { context with history := [], outputLines := [], agentSteps := [] } := by
    rw [h₁]; simp
  have h₃ : NoteContextManager.clearHistory
      (NoteContextManager.clearHistory contexts notePath) notePath
      = NoteContextManager.clearHistory contexts notePath := by
    rw [NoteContextManager.clearHistory_of_some
      (NoteContextManager.clearHistory contexts notePath) notePath
      { context with history := [], outputLines := [], agentSteps := [] } h₂, h₁]
    funext k
    by_cases hk : k = notePath
    · simp [hk]
    · simp [hk]
  refine ⟨⟨{ context with history := [], outputLines := [], agentSteps := [] },
    h₂, rfl, rfl, rfl⟩,
    ⟨{ context with history := [], outputLines := [], agentSteps := [] },
      ?_, rfl, rfl, rfl⟩, h₃⟩
  rw [h₃, h₂]

/-- Closed witness for `clearHistory_idempotent`. -/
theorem clearHistory_idempotent_witness :
    sampleCtxMap "note.md" = some sampleContext ∧
    ((∃ c₁, NoteContextManager.clearHistory sampleCtxMap "note.md" "note.md" = some c₁ ∧
        c₁.history = [] ∧ c₁.outputLines = [] ∧ c₁.agentSteps = []) ∧
      (∃ c₂, NoteContextManager.clearHistory
          (NoteContextManager.clearHistory sampleCtxMap "note.md") "note.md" "note.md"
            = some c₂ ∧
        c₂.history = [] ∧ c₂.outputLines = [] ∧ c₂.agentSteps = []) ∧
      NoteContextManager.clearHistory
          (NoteContextManager.clearHistory sampleCtxMap "note.md") "note.md"
        = NoteContextManager.clearHistory sampleCtxMap "note.md") :=
  ⟨by decide, clearHistory_idempotent sampleCtxMap "note.md" sampleContext (by decide)⟩

/-- C10: `clearHistory` on an existing context only empties its history,
output lines and agent steps — the session id, running flag, runner, pending
preview content and every other field are untouched (the result is exactly the
record update), every other key of the map is unchanged, and on a missing key
the call is a no-op that creates no context. -/
theorem clearHistory_frame (contexts : CtxMap) (notePath : String) :
    (∀ context, contexts notePath = some context →
      ∃ c₁, NoteContextManager.clearHistory contexts notePath notePath = some c₁ ∧
        c₁ = { context with history := [], outputLines := [], agentSteps := [] } ∧
        c₁.sessionId = context.sessionId ∧
        c₁.isRunning = context.isRunning ∧
        c₁.runner = context.runner ∧
        c₁.currentResponse = context.currentResponse ∧
        c₁.currentRequest = context.currentRequest ∧
        c₁.waitingForResponse = context.waitingForResponse ∧
        c₁.selectedModel = context.selectedModel ∧
        c₁.lastPrompt = context.lastPrompt ∧
        c₁.pendingPreviewContent = context.pendingPreviewContent ∧
        c₁.originalPreviewContent = context.originalPreviewContent ∧
        c₁.currentResultText = context.currentResultText ∧
        c₁.executionStartTime = context.executionStartTime ∧
        c₁.baseStatusMessage = context.baseStatusMessage) ∧
    (∀ context, contexts notePath = some context →
      ∀ k, k ≠ notePath →
        NoteContextManager.clearHistory contexts notePath k = contexts k) ∧
    (contexts notePath = none →
      NoteContextManager.clearHistory contexts notePath = contexts) := by
  refine ⟨?_, ?_, ?_⟩
  · intro context hctx
    refine ⟨{ context with history := [], outputLines := [], agentSteps := [] },
      ?_, rfl, rfl, rfl, rfl, rfl, rfl, rfl, rfl, rfl, rfl, rfl, rfl, rfl, rfl⟩
    unfold NoteContextManager.clearHistory
    rw [hctx]
    simp
  · intro context hctx k hk
    unfold NoteContextManager.clearHistory
    rw [hctx]
    simp [hk]
  · intro hnone
    unfold NoteContextManager.clearHistory
    rw [hnone]

/-- Closed witness for `clearHistory_frame` (existing key and missing key). -/
theorem clearHistory_frame_witness :
    sampleCtxMap "note.md" = some sampleContext ∧
    (∃ c₁, NoteContextManager.clearHistory sampleCtxMap "note.md" "note.md" = some c₁ ∧
      c₁ = { sampleContext with history := [], outputLines := [], agentSteps := [] } ∧
      c₁.sessionId = sampleContext.sessionId ∧
      c₁.isRunning = sampleContext.isRunning ∧
      c₁.runner = sampleContext.runner ∧
      c₁.currentResponse = sampleContext.currentResponse ∧
      c₁.currentRequest = sampleContext.currentRequest ∧
      c₁.waitingForResponse = sampleContext.waitingForResponse ∧
      c₁.selectedModel = sampleContext.selectedModel ∧
      c₁.lastPrompt = sampleContext.lastPrompt ∧
      c₁.pendingPreviewContent = sampleContext.pendingPreviewContent ∧
      c₁.originalPreviewContent = sampleContext.originalPreviewContent ∧
      c₁.currentResultText = sampleContext.currentResultText ∧
      c₁.executionStartTime = sampleContext.executionStartTime ∧
      c₁.baseStatusMessage = sampleContext.baseStatusMessage) ∧
    (NoteContextManager.clearHistory sampleCtxMap "note.md" "other.md"
      = sampleCtxMap "other.md") :=
  ⟨by decide,
   (clearHistory_frame sampleCtxMap "note.md").1 sampleContext (by decide),
   (clearHistory_frame sampleCtxMap "note.md").2.1 sampleContext (by decide)
     "other.md" (by decide)⟩

/-- C7: when the login-shell environment reconstruction fails or times out
(the `execSync` outcome is an error), and on Windows always, the spawner falls
back to the host process environment — and it still proceeds to configure and
spawn the child process from that fallback (custom overrides merged, UTF-8
forced, path resolved, default shell as interpreter). Reconstruction failure
never aborts the spawn. -/
theorem shell_env_failure_falls_back (isWindows : Bool) (processEnv : EnvMap)
    (execResult : Except String String) (fsExists : String → Bool)
    (osHomedir : String) (config : SpawnConfig)
    (h : isWindows = true ∨ ∃ err, execResult = Except.error err) :
    ProcessSpawner.getShellEnvironment isWindows processEnv execResult = processEnv ∧
    ProcessSpawner.spawn isWindows processEnv execResult fsExists osHomedir config
      = { command := ProcessSpawner.resolveClaudePath isWindows fsExists osHomedir
            (ProcessSpawner.mergeCustomEnv (config.customEnvVars.getD []) processEnv)
            config.claudePath,
          args := config.args,
          cwd := config.workingDir,
          env := ProcessSpawner.withUtf8
            (ProcessSpawner.mergeCustomEnv (config.customEnvVars.getD []) processEnv),
          shell := ProcessSpawner.getDefaultShell isWindows processEnv } := by
  have henv : ProcessSpawner.getShellEnvironment isWindows processEnv execResult
      = processEnv := by
    rcases h with h | ⟨err, h⟩
    · simp [ProcessSpawner.getShellEnvironment, h]
    · subst h
      by_cases hw : isWindows = true
      · simp [ProcessSpawner.getShellEnvironment, hw]
      · simp [ProcessSpawner.getShellEnvironment, hw]
  refine ⟨henv, ?_⟩
  unfold ProcessSpawner.spawn
  rw [henv]

/-- Closed witness for `shell_env_failure_falls_back` (a non-Windows host with
a timed-out shell-profile dump). -/
theorem shell_env_failure_falls_back_witness :
    (false = true ∨ ∃ err, (Except.error "ETIMEDOUT" : Except String String)
        = Except.error err) ∧
    (ProcessSpawner.getShellEnvironment false
        (fun k => if k = "PATH" then some "/usr/bin" else none)
        (Except.error "ETIMEDOUT")
      = (fun k => if k = "PATH" then some "/usr/bin" else none) ∧
    ProcessSpawner.spawn false
        (fun k => if k = "PATH" then some "/usr/bin" else none)
        (Except.error "ETIMEDOUT") (fun _ => false) "/home/u"
        { claudePath := "claude", args := ["--print"] }
      = { command := ProcessSpawner.resolveClaudePath false (fun _ => false) "/home/u"
            (ProcessSpawner.mergeCustomEnv []
              (fun k => if k = "PATH" then some "/usr/bin" else none))
            "claude",
          args := ["--print"],
          cwd := none,
          env := ProcessSpawner.withUtf8
            (ProcessSpawner.mergeCustomEnv []
              (fun k => if k = "PATH" then some "/usr/bin" else none)),
          shell := ProcessSpawner.getDefaultShell false
            (fun k => if k = "PATH" then some "/usr/bin" else none) }) :=
  ⟨Or.inr ⟨"ETIMEDOUT", rfl⟩,
   shell_env_failure_falls_back false
     (fun k => if k = "PATH" then some "/usr/bin" else none)
     (Except.error "ETIMEDOUT") (fun _ => false) "/home/u"
     { claudePath := "claude", args := ["--print"] }
     (Or.inr ⟨"ETIMEDOUT", rfl⟩)⟩

/-- An assistant message carrying two text content blocks. -/
def twoTextBlocks : List ClaudeContentBlock :=
  [{ type := "text", text := some "a" }, { type := "text", text := some "b" }]

/-- A raw Claude `assistant` event whose message carries `twoTextBlocks`. -/
def assistantTwoBlocksEvent : ClaudeRawEvent :=
  { type := "assistant", message := some { content := some twoTextBlocks } }

/-- C4, counterexample: the per-block demultiplexing the claim asserts would
turn the two text blocks of `assistantTwoBlocksEvent` into two normalized
events (one per contained block), but `parseEvent` returns only the event of
the first block — the second block gives rise to no event, so the produced
events are not the per-block sequence. -/
theorem parseAssistantEvent_not_demuxed :
    ClaudeBackend.specDemuxEvents twoTextBlocks
      = [{ type := "text", text := some "a" }, { type := "text", text := some "b" }] ∧
    ClaudeBackend.parseEvent assistantTwoBlocksEvent
      = some { type := "text", text := some "a" } ∧
    (ClaudeBackend.parseEvent assistantTwoBlocksEvent).toList
      ≠ ClaudeBackend.specDemuxEvents twoTextBlocks := by
  refine ⟨by decide, by decide, by decide⟩

/-- The content-block loop returns exactly the first per-block event: it
agrees with the head of the per-block (spec-side) demultiplexed sequence. -/
theorem ClaudeBackend.parseBlocks_eq_head (blocks : List ClaudeContentBlock) :
    ClaudeBackend.parseBlocks blocks
      = (ClaudeBackend.specDemuxEvents blocks).head? := by
  induction blocks with
  | nil => rfl
  | cons b rest ih =>
    unfold ClaudeBackend.specDemuxEvents at ih ⊢
    rw [List.filterMap_cons]
    unfold ClaudeBackend.parseBlocks
    cases ClaudeBackend.blockEvent b <;> simp [ih]

/-- C4, amended: every assistant event whose message carries typed content
blocks yields at most one normalized event, namely the per-block event of the
*first* matching block (the head of the demultiplexed sequence); the remaining
blocks are ignored. -/
theorem parseAssistantEvent_first_block_only (event : ClaudeRawEvent)
    (blocks : List ClaudeContentBlock)
    (htype : event.type = "assistant")
    (hmsg : event.message = some { content := some blocks }) :
    ClaudeBackend.parseEvent event
      = (ClaudeBackend.specDemuxEvents blocks).head? := by
  unfold ClaudeBackend.parseEvent ClaudeBackend.parseAssistantEvent
  rw [htype, hmsg]
  simp [ClaudeBackend.parseBlocks_eq_head]

/-- Closed witness for `parseAssistantEvent_first_block_only`. -/
theorem parseAssistantEvent_first_block_only_witness :
    assistantTwoBlocksEvent.type = "assistant" ∧
    assistantTwoBlocksEvent.message = some { content := some twoTextBlocks } ∧
    ClaudeBackend.parseEvent assistantTwoBlocksEvent
      = (ClaudeBackend.specDemuxEvents twoTextBlocks).head? :=
  ⟨rfl, rfl,
   parseAssistantEvent_first_block_only assistantTwoBlocksEvent twoTextBlocks rfl rfl⟩

/-- Once the OpenCode adapter has seen its init, parsing any further event
keeps the flag set, and a further `step_start` yields null. -/
theorem OpenCodeBackend.parseEvent_after_seen (b : OpenCodeBackend)
    (e : OpenCodeRawEvent) (hb : b.hasSeenInit = true) :
    ((b.parseEvent e).1).hasSeenInit = true ∧
    (e.type = "step_start" → (b.parseEvent e).2 = none) := by
  unfold OpenCodeBackend.parseEvent OpenCodeBackend.parseStepStartEvent
  by_cases h : e.type = "step_start"
  · simp [h, hb]
  · split_ifs <;> simp_all

/-- Trace form of the previous fact: with the flag set, a whole run of events
keeps it set and answers null at every `step_start` position. -/
theorem OpenCodeBackend.runEvents_after_seen (es : List OpenCodeRawEvent) :
    ∀ b : OpenCodeBackend, b.hasSeenInit = true →
      ((b.runEvents es).1.hasSeenInit = true ∧
       ∀ i e, es.get? i = some e → e.type = "step_start" →
         ((b.runEvents es).2).get? i = some none) := by
  induction es with
  | nil =>
    intro b hb
    refine ⟨hb, ?_⟩
    intro i e hi
    simp at hi
  | cons e₀ rest ih =>
    intro b hb
    obtain ⟨h1, h2⟩ := OpenCodeBackend.parseEvent_after_seen b e₀ hb
    obtain ⟨ih1, ih2⟩ := ih (b.parseEvent e₀).1 h1
    refine ⟨?_, ?_⟩
    · simpa [OpenCodeBackend.runEvents] using ih1
    · intro i e hi htype
      cases i with
      | zero =>
        simp at hi
        subst hi
        simp [OpenCodeBackend.runEvents, h2 htype]
      | succ n =>
        simp only [List.get?_cons_succ] at hi
        simpa [OpenCodeBackend.runEvents] using ih2 n e hi htype

/-- C3: after `reset()`, the first `step_start` parsed by the OpenCode adapter
yields an init event carrying the session id of that event; every subsequent
`step_start` in the same run (any trace of further events) yields null; and
calling `reset()` again restores the initial behaviour, the next `step_start`
being treated as init again. -/
theorem opencode_first_step_start_is_init (b : OpenCodeBackend)
    (e : OpenCodeRawEvent) (es : List OpenCodeRawEvent)
    (h : e.type = "step_start") :
    (b.reset.parseEvent e).2 = some { type := "init", sessionId := e.sessionID } ∧
    (∀ i e', es.get? i = some e' → e'.type = "step_start" →
      (((b.reset.parseEvent e).1.runEvents es).2).get? i = some none) ∧
    ((((b.reset.parseEvent e).1.runEvents es).1).reset.parseEvent e).2
      = some { type := "init", sessionId := e.sessionID } := by
  have hparse : b.reset.parseEvent e
      = ({ hasSeenInit := true }, some { type := "init", sessionId := e.sessionID }) := by
    simp [OpenCodeBackend.reset, OpenCodeBackend.parseEvent,
          OpenCodeBackend.parseStepStartEvent, h]
  refine ⟨by rw [hparse], ?_, ?_⟩
  · intro i e' hi ht
    rw [hparse]
    exact (OpenCodeBackend.runEvents_after_seen es { hasSeenInit := true } rfl).2 i e' hi ht
  · simp [OpenCodeBackend.reset, OpenCodeBackend.parseEvent,
          OpenCodeBackend.parseStepStartEvent, h]

/-- Closed witness for `opencode_first_step_start_is_init`: a fresh run whose
trace carries a second `step_start`. -/
theorem opencode_first_step_start_is_init_witness :
    ({ type := "step_start", sessionID := some "abc" } : OpenCodeRawEvent).type
        = "step_start" ∧
    (((OpenCodeBackend.mk true).reset.parseEvent
        { type := "step_start", sessionID := some "abc" }).2
      = some { type := "init", sessionId := some "abc" } ∧
    (∀ i e', ([({ type := "step_start", sessionID := some "xyz" } : OpenCodeRawEvent)]).get? i
          = some e' →
        e'.type = "step_start" →
        ((((OpenCodeBackend.mk true).reset.parseEvent
            { type := "step_start", sessionID := some "abc" }).1.runEvents
            [{ type := "step_start", sessionID := some "xyz" }]).2).get? i = some none) ∧
    (((((OpenCodeBackend.mk true).reset.parseEvent
          { type := "step_start", sessionID := some "abc" }).1.runEvents
          [{ type := "step_start", sessionID := some "xyz" }]).1).reset.parseEvent
        { type := "step_start", sessionID := some "abc" }).2
      = some { type := "init", sessionId := some "abc" }) :=
  ⟨rfl,
   opencode_first_step_start_is_init (OpenCodeBackend.mk true)
     { type := "step_start", sessionID := some "abc" }
     [{ type := "step_start", sessionID := some "xyz" }] rfl⟩

/-- The record just written is a member of the updated store. -/
theorem storePut_mem_self (store : ContextStore) (h : String) (d : SessionData) :
    (h, d) ∈ storePut store h d := by
  induction store with
  | nil => simp [storePut]
  | cons e rest ih =>
    rcases e with ⟨h₁, d₁⟩
    unfold storePut
    by_cases hh : h₁ = h
    · simp [hh]
    · simp only [if_neg hh, List.mem_cons]
      exact Or.inr ih

/-- Every member of the updated store is the written record or an original one. -/
theorem storePut_mem (store : ContextStore) (h : String) (d : SessionData)
    (x : String × SessionData) (hx : x ∈ storePut store h d) :
    x = (h, d) ∨ x ∈ store := by
  induction store with
  | nil =>
    simp [storePut] at hx
    exact Or.inl hx
  | cons e rest ih =>
    rcases e with ⟨h₁, d₁⟩
    unfold storePut at hx
    by_cases hh : h₁ = h
    · rw [if_pos hh] at hx
      rcases List.mem_cons.mp hx with hx | hx
      · exact Or.inl hx
      · exact Or.inr (List.mem_cons.mpr (Or.inr hx))
    · rw [if_neg hh] at hx
      rcases List.mem_cons.mp hx with hx | hx
      · exact Or.inr (List.mem_cons.mpr (Or.inl hx))
      · rcases ih hx with hx | hx
        · exact Or.inl hx
        · exact Or.inr (List.mem_cons.mpr (Or.inr hx))

/-- In a store with pairwise-distinct directory names, the only member of the
updated store whose directory name is the written one is the written record. -/
theorem storePut_key_unique (store : ContextStore)
    (hnodup : (store.map Prod.fst).Nodup) (h : String) (d : SessionData)
    (x : String × SessionData) (hx : x ∈ storePut store h d) (hxk : x.1 = h) :
    x = (h, d) := by
  induction store with
  | nil =>
    simp [storePut] at hx
    exact hx
  | cons e rest ih =>
    rcases e with ⟨h₁, d₁⟩
    rw [List.map_cons, List.nodup_cons] at hnodup
    obtain ⟨hnotin, hnd⟩ := hnodup
    unfold storePut at hx
    by_cases hh : h₁ = h
    · rw [if_pos hh] at hx
      rcases List.mem_cons.mp hx with hx | hx
      · exact hx
      · exfalso
        apply hnotin
        have hmm := List.mem_map_of_mem Prod.fst hx
        rw [hxk, ← hh] at hmm
        exact hmm
    · rw [if_neg hh] at hx
      rcases List.mem_cons.mp hx with hx | hx
      · exfalso
        apply hh
        have := congrArg Prod.fst hx
        rw [hxk] at this
        exact this.symm
      · exact ih hnd hx

/-- When no directory record of the listing claims the key `k` (with a truthy
note path), loading leaves the map at `k` untouched. -/
theorem NoteContextManager.loadContexts_no_claim (settings : ClaudeCodeSettings)
    (k : String) :
    ∀ (entries : ContextStore) (m : CtxMap),
      (∀ h d, (h, d) ∈ entries → d.notePath ≠ some k) →
      NoteContextManager.loadContexts settings m entries k = m k := by
  intro entries
  induction entries with
  | nil =>
    intro m _
    rfl
  | cons e rest ih =>
    intro m hno
    rcases e with ⟨h₀, d₀⟩
    show NoteContextManager.loadContexts settings
      (NoteContextManager.loadStep settings m (h₀, d₀)) rest k = m k
    rw [ih (NoteContextManager.loadStep settings m (h₀, d₀))
      (fun h d hmem => hno h d (List.mem_cons.mpr (Or.inr hmem)))]
    unfold NoteContextManager.loadStep
    rcases hd : d₀.notePath with _ | p
    · rfl
    · have hne : ¬(k = p) := by
        intro hpk
        exact hno h₀ d₀ (List.mem_cons_self _ _) (by rw [hd, hpk])
      by_cases hp : p = ""
      · simp [hp]
      · simp [hp, hne]

/-- When the listing contains a record claiming key `k` with data `d`, and
every record claiming `k` carries that same data, loading yields the
reconstruction of `d` at `k`. -/
theorem NoteContextManager.loadContexts_claimed (settings : ClaudeCodeSettings)
    (k : String) (hk : k ≠ "") (d : SessionData) (hd : d.notePath = some k) :
    ∀ (entries : ContextStore) (m : CtxMap),
      (∃ h, (h, d) ∈ entries) →
      (∀ h' d', (h', d') ∈ entries → d'.notePath = some k → d' = d) →
      NoteContextManager.loadContexts settings m entries k
        = some (NoteContextManager.reconstructContext settings d) := by
  intro entries
  induction entries with
  | nil =>
    intro m hex _
    rcases hex with ⟨h, hmem⟩
    simp at hmem
  | cons e rest ih =>
    intro m hex huniq
    rcases e with ⟨h₀, d₀⟩
    show NoteContextManager.loadContexts settings
      (NoteContextManager.loadStep settings m (h₀, d₀)) rest k = _
    by_cases hclaim : d₀.notePath = some k
    · have hd₀ : d₀ = d := huniq h₀ d₀ (List.mem_cons_self _ _) hclaim
      have hstep : NoteContextManager.loadStep settings m (h₀, d₀) k
          = some (NoteContextManager.reconstructContext settings d) := by
        unfold NoteContextManager.loadStep
        rw [hclaim]
        simp [hk, hd₀]
      by_cases hrest : ∃ h' d', (h', d') ∈ rest ∧ d'.notePath = some k
      · rcases hrest with ⟨h', d', hmem', hclaim'⟩
        have hd' : d' = d := huniq h' d' (List.mem_cons.mpr (Or.inr hmem')) hclaim'
        rw [hd'] at hmem'
        exact ih (NoteContextManager.loadStep settings m (h₀, d₀)) ⟨h', hmem'⟩
          (fun h₂ d₂ hmem₂ hclaim₂ =>
            huniq h₂ d₂ (List.mem_cons.mpr (Or.inr hmem₂)) hclaim₂)
      · rw [NoteContextManager.loadContexts_no_claim settings k rest
          (NoteContextManager.loadStep settings m (h₀, d₀))
          (fun h₂ d₂ hmem₂ hclaim₂ => hrest ⟨h₂, d₂, hmem₂, hclaim₂⟩)]
        exact hstep
    · rcases hex with ⟨h, hmem⟩
      rcases List.mem_cons.mp hmem with hmem | hmem
      · exfalso
        apply hclaim
        injection hmem with h1 h2
        rw [← h2]
        exact hd
      · exact ih (NoteContextManager.loadStep settings m (h₀, d₀)) ⟨h, hmem⟩
          (fun h₂ d₂ hmem₂ hclaim₂ =>
            huniq h₂ d₂ (List.mem_cons.mpr (Or.inr hmem₂)) hclaim₂)

/-- C5, amended: for every context saved under a *nonempty* key into a
well-formed store (each record sits under the hash of its recorded note path,
directory names pairwise distinct — both invariants of stores written by
`saveContext` on a file system), loading the updated store into a fresh
manager reproduces a context under that key with identical history length,
output-line count and session id. -/
theorem saveContext_loadContexts_roundtrip (md5 : String → String)
    (settings : ClaudeCodeSettings) (contexts : CtxMap) (notePath : String)
    (context : NoteContext) (savedAt : String) (store : ContextStore)
    (hctx : contexts notePath = some context)
    (hne : notePath ≠ "")
    (hwf : ∀ h d, (h, d) ∈ store → ∀ p, d.notePath = some p → h = md5 p)
    (hnodup : (store.map Prod.fst).Nodup) :
    ∃ context',
      NoteContextManager.loadContexts settings emptyCtxMap
          (NoteContextManager.saveContext md5 contexts notePath savedAt store)
          notePath
        = some context' ∧
      context'.history.length = context.history.length ∧
      context'.outputLines.length = context.outputLines.length ∧
      context'.sessionId = context.sessionId := by
  set d : SessionData := { notePath := some notePath,
                           sessionId := context.sessionId,
                           history := some context.history,
                           outputLines := some context.outputLines,
                           agentSteps := some context.agentSteps,
                           pendingPreviewContent := context.pendingPreviewContent,
                           originalPreviewContent := context.originalPreviewContent,
                           savedAt := some savedAt } with hd_def
  have hdp : d.notePath = some notePath := by rw [hd_def]
  have hsave : NoteContextManager.saveContext md5 contexts notePath savedAt store
      = storePut store (md5 notePath) d := by
    unfold NoteContextManager.saveContext
    rw [hctx]
  have hload : NoteContextManager.loadContexts settings emptyCtxMap
      (storePut store (md5 notePath) d) notePath
      = some (NoteContextManager.reconstructContext settings d) := by
    refine NoteContextManager.loadContexts_claimed settings notePath hne d hdp
      (storePut store (md5 notePath) d) emptyCtxMap
      ⟨md5 notePath, storePut_mem_self store (md5 notePath) d⟩ ?_
    intro h' d' hmem hclaim
    rcases storePut_mem store (md5 notePath) d (h', d') hmem with heq | hmemstore
    · exact congrArg Prod.snd heq
    · have hkey : (h', d').1 = md5 notePath := hwf h' d' hmemstore notePath hclaim
      have huniq := storePut_key_unique store hnodup (md5 notePath) d (h', d') hmem hkey
      exact congrArg Prod.snd huniq
  refine ⟨NoteContextManager.reconstructContext settings d,
    by rw [hsave]; exact hload, ?_, ?_, ?_⟩
  · simp [NoteContextManager.reconstructContext, hd_def]
  · simp [NoteContextManager.reconstructContext, hd_def]
  · simp [NoteContextManager.reconstructContext, hd_def]

/-- Closed witness for `saveContext_loadContexts_roundtrip`. -/
theorem saveContext_loadContexts_roundtrip_witness :
    sampleCtxMap "note.md" = some sampleContext ∧
    ("note.md" : String) ≠ "" ∧
    (∃ context',
      NoteContextManager.loadContexts sampleSettings emptyCtxMap
          (NoteContextManager.saveContext md5c sampleCtxMap "note.md"
            "2024-01-01T00:00:00Z" [])
          "note.md"
        = some context' ∧
      context'.history.length = sampleContext.history.length ∧
      context'.outputLines.length = sampleContext.outputLines.length ∧
      context'.sessionId = sampleContext.sessionId) :=
  ⟨by decide, by decide,
   saveContext_loadContexts_roundtrip md5c sampleSettings sampleCtxMap "note.md"
     sampleContext "2024-01-01T00:00:00Z" [] (by decide) (by decide)
     (by intro h d hmem; simp at hmem) (by simp)⟩

/-- C5, counterexample to the claim as stated: a context saved under the
empty-string key is written to disk by `saveContext`, but `loadContexts` into
a fresh manager does not reproduce any context under that key, because the
loader only registers records with a truthy (nonempty) note path. -/
theorem saveContext_empty_key_not_reloaded :
    emptyKeyCtxMap "" = some sampleContext ∧
    NoteContextManager.saveContext md5c emptyKeyCtxMap "" "2024-01-01T00:00:00Z" []
      = [("h", { notePath := some "",
                 sessionId := some "s1",
                 history := some [sampleHistoryItem],
                 outputLines := some ["line"],
                 agentSteps := some [],
                 savedAt := some "2024-01-01T00:00:00Z" })] ∧
    NoteContextManager.loadContexts sampleSettings emptyCtxMap
      (NoteContextManager.saveContext md5c emptyKeyCtxMap "" "2024-01-01T00:00:00Z" [])
      "" = none :=
  ⟨by decide, by decide, by decide⟩
